import Mathlib

/-!
Shallow embedding of `src/backend/python/pdf_parser/parser.py`
(Master Schedule PDF Parser) and verification of the specification's
claims about it.

The external text-extraction engine (pdfplumber) is out of scope: a page
is modelled as the list of positioned words the engine would deliver.
Python floats are modelled as exact rationals, Python exceptions as
`Except String` (the parser has a single error kind, ValidationError)
or `Option` where an exception is only ever caught.
-/

deriving instance DecidableEq for Except

namespace Sched

/-- A positioned word as delivered by `page.extract_words`: the word's
text, its left edge `x0` and its vertical position `top`.  (The `size`
attribute requested during calibration is never read by the parser, so
it is omitted.) -/
structure Word where
  text : String
  x0 : ℚ
  top : ℚ
deriving DecidableEq

/-- The five weekdays used by the parser (`MasterScheduleParser.DAYS`). -/
inductive Day where
  | Monday
  | Tuesday
  | Wednesday
  | Thursday
  | Friday
deriving DecidableEq

/-- `MasterScheduleParser.DAYS`, in canonical order. -/
def DAYS : List Day := [.Monday, .Tuesday, .Wednesday, .Thursday, .Friday]

/-- The surface string of each day, as it appears in `DAYS`. -/
def Day.name : Day → String
  | .Monday => "Monday"
  | .Tuesday => "Tuesday"
  | .Wednesday => "Wednesday"
  | .Thursday => "Thursday"
  | .Friday => "Friday"

/-- Canonical slot index of a day (`day_order` in `_calibrate_day_columns`). -/
def Day.idx : Day → Nat
  | .Monday => 0
  | .Tuesday => 1
  | .Wednesday => 2
  | .Thursday => 3
  | .Friday => 4

/-- `ClassInfo.DAY_MAP`: Monday = 1 .. Friday = 5. -/
def Day.num : Day → Nat
  | .Monday => 1
  | .Tuesday => 2
  | .Wednesday => 3
  | .Thursday => 4
  | .Friday => 5

/-- Python `needle in hay` on strings, on the character-list level. -/
def containsSeq (needle : List Char) : List Char → Bool
  | [] => needle.isEmpty
  | c :: rest => needle.isPrefixOf (c :: rest) || containsSeq needle rest

/-- Python `needle in hay` for strings. -/
def strContainsStr (hay needle : String) : Bool :=
  containsSeq needle.data hay.data

/-- ASCII lowercasing of one character (all strings the parser handles
are ASCII). -/
def lowerChar (c : Char) : Char :=
  if 'A' ≤ c ∧ c ≤ 'Z' then Char.ofNat (c.toNat + 32) else c

/-- Python `s.lower()`. -/
def strToLower (s : String) : String :=
  ⟨s.data.map lowerChar⟩

/-- ASCII whitespace, as stripped by Python `s.strip()`. -/
def isSpaceChar (c : Char) : Bool :=
  c == ' ' || c == '\t' || c == '\n' || c == '\r'

/-- Python `s.strip()`. -/
def strTrim (s : String) : String :=
  ⟨(((s.data.dropWhile isSpaceChar).reverse).dropWhile isSpaceChar).reverse⟩

/-- Python `s.startswith(p)`. -/
def strStartsWith (s p : String) : Bool :=
  p.data.isPrefixOf s.data

/-- Python `s.split(sep)` for a one-character separator, accumulator form. -/
def splitCharAux (sep : Char) : List Char → List Char → List String
  | [], acc => [⟨acc.reverse⟩]
  | c :: rest, acc =>
    if c == sep then ⟨acc.reverse⟩ :: splitCharAux sep rest []
    else splitCharAux sep rest (c :: acc)

/-- Python `s.split(sep)` for a one-character separator. -/
def splitChar (s : String) (sep : Char) : List String :=
  splitCharAux sep s.data []

/-- Python `re.match(r'^\d+$', s)`: the whole string is one or more digits. -/
def isAllDigitsStr (s : String) : Bool :=
  !s.isEmpty && s.data.all Char.isDigit

/-- Python `re.search(r'([1-8])', s)`: the first character of `s` in the
range 1..8, as a number. -/
def firstPeriodDigit (s : String) : Option Nat :=
  match s.data.find? (fun c => decide ('1' ≤ c) && decide (c ≤ '8')) with
  | some c => some (c.toNat - '0'.toNat)
  | none => none

/-- `ClassInfo.VALID_GRADES`. -/
def VALID_GRADES : List String := ["Pre-K", "K", "1", "2", "3", "4", "5", "multiple"]

/-- `ClassInfo.VALID_PERIODS` (`set(range(1, 9))`). -/
def VALID_PERIODS : List Nat := [1, 2, 3, 4, 5, 6, 7, 8]

/-- Pattern `^PK\d{3}$` (Pre-K rooms). -/
def matchPK (s : String) : Bool :=
  match s.data with
  | ['P', 'K', a, b, c] => a.isDigit && b.isDigit && c.isDigit
  | _ => false

/-- Pattern `^K-\d{3}$` (kindergarten rooms). -/
def matchK (s : String) : Bool :=
  match s.data with
  | ['K', '-', a, b, c] => a.isDigit && b.isDigit && c.isDigit
  | _ => false

/-- Pattern `^\d-\d{3}$` (single-grade rooms). -/
def matchSingleGrade (s : String) : Bool :=
  match s.data with
  | [d, '-', a, b, c] => d.isDigit && a.isDigit && b.isDigit && c.isDigit
  | _ => false

/-- Pattern `^[K\d]/[K\d]/[K\d]-\d{3}$` (multiple-grade rooms). -/
def matchMultiGrade (s : String) : Bool :=
  match s.data with
  | [g1, '/', g2, '/', g3, '-', a, b, c] =>
      (g1 == 'K' || g1.isDigit) && (g2 == 'K' || g2.isDigit) && (g3 == 'K' || g3.isDigit) &&
      a.isDigit && b.isDigit && c.isDigit
  | _ => false

/-- `any(re.match(pattern, class_id) for pattern in VALID_CLASS_PATTERNS)`. -/
def validClassId (s : String) : Bool :=
  matchPK s || matchK s || matchSingleGrade s || matchMultiGrade s

/-- The `conflicts` dictionary of a `ClassInfo`: it always has exactly the
five weekday keys, created in Monday..Friday insertion order. -/
structure Conflicts where
  monday : List Nat
  tuesday : List Nat
  wednesday : List Nat
  thursday : List Nat
  friday : List Nat
deriving DecidableEq

/-- The fresh conflicts dictionary built in `ClassInfo.__init__`. -/
def Conflicts.empty : Conflicts := ⟨[], [], [], [], []⟩

/-- Dictionary lookup `self.conflicts[day]`. -/
def Conflicts.get : Conflicts → Day → List Nat
  | c, .Monday => c.monday
  | c, .Tuesday => c.tuesday
  | c, .Wednesday => c.wednesday
  | c, .Thursday => c.thursday
  | c, .Friday => c.friday

/-- Dictionary update `self.conflicts[day] = l`. -/
def Conflicts.set : Conflicts → Day → List Nat → Conflicts
  | c, .Monday, l => { c with monday := l }
  | c, .Tuesday, l => { c with tuesday := l }
  | c, .Wednesday, l => { c with wednesday := l }
  | c, .Thursday, l => { c with thursday := l }
  | c, .Friday, l => { c with friday := l }

/-- `self.conflicts.values()`, in dictionary insertion order Monday..Friday. -/
def Conflicts.values (c : Conflicts) : List (List Nat) :=
  [c.monday, c.tuesday, c.wednesday, c.thursday, c.friday]

/-- The `ClassInfo` object: class identifier, grade level, the per-day
conflict dictionary, and the `_all_conflicts` dedup set (modelled as a
membership list). -/
structure ClassInfo where
  class_id : String
  grade_level : String
  conflicts : Conflicts
  all_conflicts : List (Day × Nat)
deriving DecidableEq

/-- `ClassInfo.validate_class_id`. -/
def validateClassId (s : String) : Except String Unit :=
  if validClassId s then .ok () else .error "Invalid class identifier format"

/-- `ClassInfo.validate_grade_level`. -/
def validateGradeLevel (g : String) : Except String Unit :=
  if g ∈ VALID_GRADES then .ok () else .error "Invalid grade level"

/-- `ClassInfo.validate_period`. -/
def validatePeriod (p : Nat) : Except String Unit :=
  if p ∈ VALID_PERIODS then .ok () else .error "Invalid period number"

/-- `ClassInfo.__init__`: validates the class identifier and grade level,
then starts with empty conflict structures. -/
def mkClassInfo (class_id grade_level : String) : Except String ClassInfo :=
  match validateClassId class_id with
  | .error e => .error e
  | .ok _ =>
    match validateGradeLevel grade_level with
    | .error e => .error e
    | .ok _ => .ok ⟨class_id, grade_level, Conflicts.empty, []⟩

/-- `ClassInfo.add_conflict`: validates the period, silently drops a
duplicate (day, period) pair, otherwise records the pair in the dedup
set and keeps the day's period list sorted.  Python's stable
`list.sort()` on distinct naturals is modelled by `List.insertionSort`,
a stable sort with the same ordering, hence the same output. -/
def ClassInfo.add_conflict (c : ClassInfo) (day : Day) (period : Nat) :
    Except String ClassInfo :=
  match validatePeriod period with
  | .error e => .error e
  | .ok _ =>
    if (day, period) ∈ c.all_conflicts then .ok c
    else
      let c1 : ClassInfo := { c with all_conflicts := (day, period) :: c.all_conflicts }
      if period ∈ c1.conflicts.get day then .ok c1
      else .ok { c1 with
        conflicts := c1.conflicts.set day
          (List.insertionSort (· ≤ ·) (c1.conflicts.get day ++ [period])) }

/-- The expected-grade computation at the top of `ClassInfo.validate`:
`class_prefix = class_id.split('-')[0]`, then the prefix-shape analysis.
`none` models Python's `expected_grade = None`. -/
def expectedGradeOf (class_id : String) : Except String (Option String) :=
  let class_prefix : String := ⟨class_id.data.takeWhile (· ≠ '-')⟩
  if strStartsWith class_prefix "PK" then .ok (some "Pre-K")
  else if class_prefix == "K" then .ok (some "K")
  else if class_prefix.data.contains '/' then
    match (splitChar class_prefix '/').find?
        (fun g => decide (g ∉ (["K", "1", "2", "3", "4", "5"] : List String))) with
    | some _ => .error "Invalid grade in multiple-grade class"
    | none => .ok (some "multiple")
  else
    match class_prefix.data with
    | c :: _ =>
      if c.isDigit then
        if 5 < c.toNat - '0'.toNat then .error "Invalid grade number in class"
        else .ok (some (⟨[c]⟩ : String))
      else .ok none
    | [] => .ok none

/-- The final loop of `ClassInfo.validate`: fail if any single weekday has
more than 8 periods recorded (dictionary iteration order Monday..Friday). -/
def ClassInfo.dayLimitCheck (c : ClassInfo) : Except String Unit :=
  match DAYS.find? (fun d => decide (8 < (c.conflicts.get d).length)) with
  | some _ => .error "More than 8 conflicts on one day"
  | none => .ok ()

/-- `ClassInfo.validate` (finalization): grade/identifier cross-check,
then the at-least-one-conflict check, then the per-day limit check. -/
def ClassInfo.validate (c : ClassInfo) : Except String Unit :=
  match expectedGradeOf c.class_id with
  | .error e => .error e
  | .ok expected =>
    if expected ≠ some c.grade_level then
      .error "Grade level does not match class identifier format"
    else if c.conflicts.values.all List.isEmpty then
      .error "Class has no conflicts"
    else c.dayLimitCheck

/-- The `defaultConflicts` array built by `ClassInfo.to_dict`: iterate the
conflicts dictionary in insertion order (Monday..Friday) and emit
`(DAY_MAP[day], period)` for each recorded period, in list order. -/
def ClassInfo.defaultConflicts (c : ClassInfo) : List (Nat × Nat) :=
  (DAYS.map (fun d => (c.conflicts.get d).map (fun p => (d.num, p)))).flatten

/-- The day-header candidate scan of `_calibrate_day_columns`: for every
word, for every day whose lowercased name occurs in the word's lowercased
text, record `(day, x0)`. -/
def dayCandidates (words : List Word) : List (Day × ℚ) :=
  words.flatMap (fun w =>
    (DAYS.filter (fun d => strContainsStr (strToLower w.text) (strToLower d.name))).map
      (fun d => (d, w.x0)))

/-- `day_positions.sort(key=lambda x: x[1])`: Python's stable sort by the
x-coordinate, modelled by the stable `List.insertionSort` with the same
key ordering. -/
def sortByX (l : List (Day × ℚ)) : List (Day × ℚ) :=
  l.insertionSort (fun a b => a.2 ≤ b.2)

/-- The body of the inner `while len(ordered_positions) < idx` loop of
`_calibrate_day_columns`: backfill one missing slot, by interpolation
from the previous filled slot when one exists, otherwise by backward
extrapolation from an assumed leftmost position of 150. -/
def fillStep (ordered : List ℚ) (idx : Nat) (pos : ℚ) : List ℚ :=
  match ordered.getLast? with
  | some prev =>
      ordered ++ [prev + (pos - prev) / ((idx : ℚ) - (ordered.length : ℚ) + 1)]
  | none =>
      ordered ++ [pos - ((pos - 150) / (idx : ℚ)) * ((idx : ℚ) - (ordered.length : ℚ))]

/-- The inner `while len(ordered_positions) < idx` loop: each iteration
appends exactly one slot, so the loop runs exactly
`idx - ordered.length` times; the countdown argument makes that explicit. -/
def fillToAux : Nat → List ℚ → Nat → ℚ → List ℚ
  | 0, ordered, _, _ => ordered
  | n + 1, ordered, idx, pos => fillToAux n (fillStep ordered idx pos) idx pos

/-- The inner backfill loop of `_calibrate_day_columns`. -/
def fillTo (ordered : List ℚ) (idx : Nat) (pos : ℚ) : List ℚ :=
  fillToAux (idx - ordered.length) ordered idx pos

/-- The `for day, pos in day_positions` loop: backfill up to each
candidate's canonical slot, then fill the candidate's own slot with its
literal x-coordinate. -/
def fillAll : List (Day × ℚ) → List ℚ → List ℚ
  | [], acc => acc
  | (d, pos) :: rest, acc => fillAll rest (fillTo acc d.idx pos ++ [pos])

/-- The trailing `while len(ordered_positions) < 5` loop plus the final
truncation `ordered_positions[:5]`.  `none` models the `IndexError`
Python raises on `ordered_positions[-2]` when only one slot is filled.
Every iteration either appends one slot or (from the empty list) jumps
to the five fallback slots, so the loop runs at most 5 iterations; the
countdown argument of `finishFiveAux` makes that explicit, and the
fuel-exhausted base case is unreachable from `finishFive`. -/
def finishFiveAux : Nat → List ℚ → Option (List ℚ)
  | 0, ordered => some (ordered.take 5)
  | n + 1, ordered =>
    if ordered.length < 5 then
      if ordered.isEmpty then finishFiveAux n [150, 250, 350, 450, 550]
      else
        match ordered.reverse with
        | y :: x :: _ => finishFiveAux n (ordered ++ [y + (y - x)])
        | _ => none
    else some (ordered.take 5)

/-- The trailing forward-extrapolation loop of `_calibrate_day_columns`
plus the final truncation to five slots. -/
def finishFive (ordered : List ℚ) : Option (List ℚ) :=
  finishFiveAux 5 ordered

/-- `_calibrate_day_columns` as a function from a page's words to the
five day-column x-positions (`none` models an uncaught `IndexError`). -/
def calibrate (words : List Word) : Option (List ℚ) :=
  let day_positions := dayCandidates words
  if day_positions.isEmpty then some [150, 250, 350, 450, 550]
  else finishFive (fillAll (sortByX day_positions) [])

/-- The word sort at the top of `_group_into_lines`:
`sorted(words, key=lambda w: (w['top'], w['x0']))`, Python's stable sort
under the lexicographic key, modelled by the stable `List.insertionSort`
with the same key ordering. -/
def sortWords (words : List Word) : List Word :=
  words.insertionSort (fun a b => a.top < b.top ∨ (a.top = b.top ∧ a.x0 ≤ b.x0))

/-- The line-accumulation walk of `_group_into_lines`: a word starts a new
line when its `top` differs from the current anchor by more than 5. -/
def groupLoop : List Word → List Word → Option ℚ → List (List Word) → List (List Word)
  | [], current, _, acc => if current.isEmpty then acc else acc ++ [current]
  | w :: rest, current, curY, acc =>
    let cy := curY.getD w.top
    if |w.top - cy| > 5 then
      groupLoop rest [w] (some w.top) (if current.isEmpty then acc else acc ++ [current])
    else
      groupLoop rest (current ++ [w]) (some cy) acc

/-- `_group_into_lines`. -/
def group_into_lines (words : List Word) : List (List Word) :=
  groupLoop (sortWords words) [] none []

/-- `_determine_grade_level`. -/
def determine_grade_level (class_id : String) : String :=
  if strStartsWith class_id "PK" then "Pre-K"
  else if strStartsWith class_id "K-" then "K"
  else if class_id.data.contains '/' then "multiple"
  else
    match class_id.data with
    | c1 :: c2 :: _ => if c1.isDigit && c2 == '-' then (⟨[c1]⟩ : String) else "unknown"
    | _ => "unknown"

/-- `_extract_class_info`: a line opens a new record when it has at least
two tokens, the second token's trimmed text matches a class-identifier
pattern, the grade level is determined, and construction succeeds; every
failure yields `none` (the caught `ValidationError` included). -/
def extract_class_info (line : List Word) : Option ClassInfo :=
  match line with
  | _ :: w1 :: _ =>
    let class_id := strTrim w1.text
    if !validClassId class_id then none
    else
      let grade_level := determine_grade_level class_id
      if grade_level == "unknown" then none
      else
        match mkClassInfo class_id grade_level with
        | .ok ci => some ci
        | .error _ => none
  | _ => none

/-- The day-column matching loop of `_extract_conflicts`: the nearest
calibrated column strictly within distance 100, scanning columns in
order and keeping the first strict improvement. -/
def bestColAux (x : ℚ) : List (Nat × ℚ) → Option (Nat × ℚ) → Option (Nat × ℚ)
  | [], best => best
  | (i, col) :: rest, best =>
    let d := |x - col|
    bestColAux x rest
      (match best with
       | none => if d < 100 then some (i, d) else none
       | some (bi, bd) => if d < bd ∧ d < 100 then some (i, d) else some (bi, bd))

/-- Index of the day column matched for x-position `x`, if any. -/
def bestCol (cols : List ℚ) (x : ℚ) : Option Nat :=
  (bestColAux x cols.enum none).map (·.1)

/-- The index list of Python's `range(i - 1, max(start_idx - 1, i - 3), -1)`
used by the subject lookback (at most the two previous indices). -/
def lookbackJs (i start_idx : Nat) : List Int :=
  let m : Int := max ((start_idx : Int) - 1) ((i : Int) - 3)
  (if (i : Int) - 1 > m then [(i : Int) - 1] else []) ++
    (if (i : Int) - 2 > m then [(i : Int) - 2] else [])

/-- The subject lookback of `_extract_conflicts`: the nearest previous
token (within the lookback window and line bounds) whose lowercased text
is not purely numeric. -/
def findSubject (line : List Word) (i start_idx : Nat) : Option String :=
  (lookbackJs i start_idx).findSome? (fun j =>
    if h : 0 ≤ j ∧ j.toNat < line.length then
      let prev := strToLower (line.get ⟨j.toNat, h.2⟩).text
      if !isAllDigitsStr prev then some prev else none
    else none)

/-- The `while i < len(line)` scan of `_extract_conflicts`: for each token
holding a period digit that maps to a day column within tolerance, look
back for a subject (diagnostics only) and add the (day, period) pair.
The loop walks the indices `i, i+1, ...` up to the line's length, i.e.
the suffix `line.drop i`, which drives the structural recursion; `i` is
carried along for the subject lookback. -/
def conflictLoop (line : List Word) (cols : List ℚ) (start_idx : Nat) :
    List Word → Nat → ClassInfo → Except String ClassInfo
  | [], _, c => .ok c
  | word :: restWords, i, c =>
    match firstPeriodDigit word.text with
    | none => conflictLoop line cols start_idx restWords (i + 1) c
    | some period =>
      match bestCol cols word.x0 with
      | none => conflictLoop line cols start_idx restWords (i + 1) c
      | some day_idx =>
        match DAYS[day_idx]? with
        | none => .error "list index out of range"
        | some day =>
          let subject := findSubject line i start_idx
          if subject.isSome then
            match c.add_conflict day period with
            | .error e => .error e
            | .ok c2 => conflictLoop line cols start_idx restWords (i + 1) c2
          else
            match c.add_conflict day period with
            | .error e => .error e
            | .ok c2 => conflictLoop line cols start_idx restWords (i + 1) c2

/-- `_extract_conflicts`: skip the first two tokens on a record-opening
line, none on a continuation line. -/
def extract_conflicts (line : List Word) (c : ClassInfo) (continuation_line : Bool)
    (cols : List ℚ) : Except String ClassInfo :=
  if line.isEmpty || cols.isEmpty then .ok c
  else
    let start_idx := if !continuation_line then 2 else 0
    conflictLoop line cols start_idx (line.drop start_idx) start_idx c

/-- Modelled from the spec: the conflict extractor "with the lookback
removed" — the subject lookback is absent and the (day, period) pair is
recorded unconditionally, as the spec says extraction proceeds
identically whether or not a subject is found. -/
def conflictLoopNoSubject (line : List Word) (cols : List ℚ) (start_idx : Nat) :
    List Word → Nat → ClassInfo → Except String ClassInfo
  | [], _, c => .ok c
  | word :: restWords, i, c =>
    match firstPeriodDigit word.text with
    | none => conflictLoopNoSubject line cols start_idx restWords (i + 1) c
    | some period =>
      match bestCol cols word.x0 with
      | none => conflictLoopNoSubject line cols start_idx restWords (i + 1) c
      | some day_idx =>
        match DAYS[day_idx]? with
        | none => .error "list index out of range"
        | some day =>
          match c.add_conflict day period with
          | .error e => .error e
          | .ok c2 => conflictLoopNoSubject line cols start_idx restWords (i + 1) c2

/-- Modelled from the spec: `_extract_conflicts` with the subject
lookback removed. -/
def extract_conflicts_no_subject (line : List Word) (c : ClassInfo)
    (continuation_line : Bool) (cols : List ℚ) : Except String ClassInfo :=
  if line.isEmpty || cols.isEmpty then .ok c
  else
    let start_idx := if !continuation_line then 2 else 0
    conflictLoopNoSubject line cols start_idx (line.drop start_idx) start_idx c

/-- Python dictionary assignment `m[k] = v`: replace in place when the key
exists (keeping its original position), append otherwise. -/
def dictInsert (m : List (String × ClassInfo)) (k : String) (v : ClassInfo) :
    List (String × ClassInfo) :=
  if m.any (fun kv => kv.1 == k) then
    m.map (fun kv => if kv.1 == k then (k, v) else kv)
  else m ++ [(k, v)]

/-- One iteration of the `for line in lines` loop of `_process_page`: the
parse state is the classes dictionary plus the current class (Python
aliases the dictionary entry and `current_class`; here the mutated record
is written back to both). -/
def processLine (cols : List ℚ) (st : List (String × ClassInfo) × Option ClassInfo)
    (line : List Word) : Except String (List (String × ClassInfo) × Option ClassInfo) :=
  match extract_class_info line with
  | some ci =>
    match extract_conflicts line ci false cols with
    | .error e => .error e
    | .ok ci2 => .ok (dictInsert st.1 ci2.class_id ci2, some ci2)
  | none =>
    match st.2 with
    | none => .ok (st.1, none)
    | some cur =>
      match extract_conflicts line cur true cols with
      | .error e => .error e
      | .ok cur2 => .ok (dictInsert st.1 cur2.class_id cur2, some cur2)

/-- The `for line in lines` loop of `_process_page`. -/
def processLines (cols : List ℚ) :
    List (List Word) → List (String × ClassInfo) × Option ClassInfo →
    Except String (List (String × ClassInfo) × Option ClassInfo)
  | [], st => .ok st
  | l :: rest, st =>
    match processLine cols st l with
    | .error e => .error e
    | .ok st' => processLines cols rest st'

/-- `_process_page`: group the page's words into lines and process them,
starting with no current class. -/
def process_page (cols : List ℚ) (classes : List (String × ClassInfo))
    (words : List Word) : Except String (List (String × ClassInfo)) :=
  match processLines cols (group_into_lines words) (classes, none) with
  | .error e => .error e
  | .ok st => .ok st.1

/-- The duplicate-identifier loop of `_validate_results`: walk the
dictionary's keys, failing when a key was already seen. -/
def checkUniqueLoop : List String → List String → Except String Unit
  | [], _ => .ok ()
  | k :: rest, seen =>
    if k ∈ seen then .error "Duplicate class identifier"
    else checkUniqueLoop rest (seen ++ [k])

/-- The per-record validation loop of `_validate_results`. -/
def validateAllLoop : List ClassInfo → Except String Unit
  | [] => .ok ()
  | c :: rest =>
    match c.validate with
    | .error e => .error e
    | .ok _ => validateAllLoop rest

/-- `_validate_results` (the grade-level histogram is diagnostic output
only and has no effect on the result). -/
def validate_results (classes : List (String × ClassInfo)) : Except String Unit :=
  match checkUniqueLoop (classes.map (·.1)) [] with
  | .error e => .error e
  | .ok _ => validateAllLoop (classes.map (·.2))

/-- The page loop of `parse`: calibrate on the first page (the calibrated
columns are cached for the rest of the document), then process each page. -/
def parsePages : List (List Word) → List ℚ → List (String × ClassInfo) →
    Except String (List (String × ClassInfo))
  | [], _, classes => .ok classes
  | page :: rest, cols, classes =>
    match (if cols.isEmpty then calibrate page else some cols) with
    | none => .error "list index out of range"
    | some cols' =>
      match process_page cols' classes page with
      | .error e => .error e
      | .ok classes' => parsePages rest cols' classes'

/-- `MasterScheduleParser.parse`: process all pages, then validate the
results. -/
def parse (pages : List (List Word)) : Except String (List (String × ClassInfo)) :=
  match parsePages pages [] [] with
  | .error e => .error e
  | .ok classes =>
    match validate_results classes with
    | .error e => .error e
    | .ok _ => .ok classes

/-- Run a finite sequence of `add_conflict` calls against a record,
propagating the first failure. -/
def runCalls (c : ClassInfo) : List (Day × Nat) → Except String ClassInfo
  | [] => .ok c
  | (d, p) :: rest =>
    match c.add_conflict d p with
    | .error e => .error e
    | .ok c1 => runCalls c1 rest

/-- Record invariant: every per-day period list is strictly ascending and
all its entries lie in 1..8. -/
def GoodLists (c : ClassInfo) : Prop :=
  ∀ d : Day, List.Pairwise (· < ·) (c.conflicts.get d) ∧
    ∀ p ∈ c.conflicts.get d, 1 ≤ p ∧ p ≤ 8

/-- Strict day-then-period lexicographic order on serialized conflict
entries `(dayOfWeek, period)`. -/
def lexLt (a b : Nat × Nat) : Prop :=
  a.1 < b.1 ∨ (a.1 = b.1 ∧ a.2 < b.2)

/-- A one-page document whose two class-record lines both carry the class
identifier `PK207`: the first line records (Tuesday, period 2), the
second records (Monday, period 3). -/
def duplicateClassIdPage : List Word :=
  [⟨"001", 10, 0⟩, ⟨"PK207", 50, 0⟩, ⟨"Tech", 230, 0⟩, ⟨"2", 250, 0⟩,
   ⟨"002", 10, 20⟩, ⟨"PK207", 50, 20⟩, ⟨"Lib", 140, 20⟩, ⟨"3", 150, 20⟩]

/-- The x-coordinate comparison used by `sortByX` is total. -/
instance : IsTotal (Day × ℚ) (fun u v => u.2 ≤ v.2) :=
  ⟨fun u v => le_total u.2 v.2⟩

/-- The x-coordinate comparison used by `sortByX` is transitive. -/
instance : IsTrans (Day × ℚ) (fun u v => u.2 ≤ v.2) :=
  ⟨fun _ _ _ h1 h2 => le_trans h1 h2⟩

/-- Strict x-coordinate comparison on day candidates is transitive. -/
instance : IsTrans (Day × ℚ) (fun u v => u.2 < v.2) :=
  ⟨fun _ _ _ h1 h2 => lt_trans h1 h2⟩

end Sched

namespace Sched

/-! ## Helper lemmas -/

theorem get_set (c : Conflicts) (d d' : Day) (l : List Nat) :
    (c.set d l).get d' = if d' = d then l else c.get d' := by
  cases d <;> cases d' <;> simp [Conflicts.get, Conflicts.set]

theorem mem_VALID_PERIODS {p : Nat} : p ∈ VALID_PERIODS ↔ 1 ≤ p ∧ p ≤ 8 := by
  simp [VALID_PERIODS]
  omega

theorem validatePeriod_ok {p : Nat} (h1 : 1 ≤ p) (h8 : p ≤ 8) :
    validatePeriod p = .ok () := by
  simp [validatePeriod, mem_VALID_PERIODS.mpr ⟨h1, h8⟩]

/-! ## C3: idempotence of `add_conflict` -/

/-- C3: for every `ClassRecord`, weekday and period in 1..8, calling
`add_conflict` twice with the same (day, period) pair produces exactly
the state produced by calling it once (per-day lists and the internal
dedup set included); the duplicate insertion is silently ignored. -/
theorem add_conflict_idempotent (c : ClassInfo) (d : Day) (p : Nat)
    (h1 : 1 ≤ p) (h8 : p ≤ 8) :
    (c.add_conflict d p).bind (fun c1 => c1.add_conflict d p) = c.add_conflict d p := by
  have hv := validatePeriod_ok h1 h8
  by_cases hm : (d, p) ∈ c.all_conflicts
  · simp [ClassInfo.add_conflict, hv, hm, Except.bind]
  · by_cases hin : p ∈ c.conflicts.get d
    · simp [ClassInfo.add_conflict, hv, hm, hin, Except.bind]
    · simp [ClassInfo.add_conflict, hv, hm, hin, Except.bind]

/-- Witness for C3 at a concrete record, day and period. -/
theorem add_conflict_idempotent_witness :
    ((⟨"PK207", "Pre-K", Conflicts.empty, []⟩ : ClassInfo).add_conflict .Monday 3).bind
        (fun c1 => c1.add_conflict .Monday 3) =
      (⟨"PK207", "Pre-K", Conflicts.empty, []⟩ : ClassInfo).add_conflict .Monday 3 :=
  add_conflict_idempotent ⟨"PK207", "Pre-K", Conflicts.empty, []⟩ .Monday 3
    (by decide) (by decide)

/-! ## C7: finalization fails on an empty conflict map -/

/-- C7: for every `ClassRecord` whose conflict mapping is empty for all
five weekdays, finalization (`ClassInfo.validate`) raises a
ValidationError (it never returns success). -/
theorem validate_empty_conflicts_fails (c : ClassInfo)
    (h : ∀ d : Day, c.conflicts.get d = []) :
    (ClassInfo.validate c).isOk = false := by
  have hmo := h .Monday
  have htu := h .Tuesday
  have hwe := h .Wednesday
  have hth := h .Thursday
  have hfr := h .Friday
  simp [Conflicts.get] at hmo htu hwe hth hfr
  unfold ClassInfo.validate
  cases hg : expectedGradeOf c.class_id with
  | error e => simp [Except.isOk, Except.toBool]
  | ok expected =>
    by_cases heq : expected ≠ some c.grade_level
    · simp [heq, Except.isOk, Except.toBool]
    · have hall : c.conflicts.values.all List.isEmpty = true := by
        simp [Conflicts.values, hmo, htu, hwe, hth, hfr]
      simp [heq, hall, Except.isOk, Except.toBool]

/-- Witness for C7 at a concrete record with no conflicts. -/
theorem validate_empty_conflicts_fails_witness :
    (ClassInfo.validate ⟨"PK207", "Pre-K", Conflicts.empty, []⟩).isOk = false :=
  validate_empty_conflicts_fails ⟨"PK207", "Pre-K", Conflicts.empty, []⟩
    (fun d => by cases d <;> rfl)

/-! ## C6: a `9-999` second token opens no record -/

/-- C6: for every line whose second token's trimmed text is `"9-999"`
(matching the single-grade surface pattern but with grade digit 9 > 5),
record detection returns no match without any uncaught exception (the
`ValidationError` from construction is caught inside), and when no
record is active the line contributes neither a record nor any conflict:
the parse state is unchanged. -/
theorem nine_dash_line_no_match (w0 w1 : Word) (rest : List Word)
    (cols : List ℚ) (classes : List (String × ClassInfo))
    (h : strTrim w1.text = "9-999") :
    extract_class_info (w0 :: w1 :: rest) = none ∧
      processLine cols (classes, none) (w0 :: w1 :: rest) = .ok (classes, none) := by
  have h1 : extract_class_info (w0 :: w1 :: rest) = none := by
    simp only [extract_class_info, h]
    decide
  exact ⟨h1, by simp [processLine, h1]⟩

/-- Witness for C6 at a concrete line with second token `"9-999"`. -/
theorem nine_dash_line_no_match_witness :
    extract_class_info [⟨"001", 10, 0⟩, ⟨"9-999", 50, 0⟩] = none ∧
      processLine [150, 250, 350, 450, 550] ([], none)
        [⟨"001", 10, 0⟩, ⟨"9-999", 50, 0⟩] = .ok ([], none) :=
  nine_dash_line_no_match ⟨"001", 10, 0⟩ ⟨"9-999", 50, 0⟩ [] [150, 250, 350, 450, 550] []
    (by decide)


/-! ## C2: calibration output size and failure behaviour -/

theorem finishFiveAux_length :
    ∀ (n : Nat) (o r : List ℚ), 5 ≤ o.length + n → finishFiveAux n o = some r →
      r.length = 5 := by
  intro n
  induction n with
  | zero =>
    intro o r hn h
    simp only [finishFiveAux] at h
    cases h
    simp [List.length_take]
    omega
  | succ n ih =>
    intro o r hn h
    simp only [finishFiveAux] at h
    by_cases h5 : o.length < 5
    · rw [if_pos h5] at h
      by_cases h0 : o.isEmpty
      · rw [if_pos h0] at h
        exact ih _ _ (by simp) h
      · rw [if_neg h0] at h
        cases hrev : o.reverse with
        | nil => rw [hrev] at h; cases h
        | cons y t =>
          cases t with
          | nil => rw [hrev] at h; cases h
          | cons x t' =>
            rw [hrev] at h
            exact ih _ _ (by simp; omega) h
    · rw [if_neg h5] at h
      cases h
      simp [List.length_take]
      omega

/-- C2 (amended): whenever column calibration completes without raising,
it produces exactly 5 x-coordinates. -/
theorem calibrate_some_length_five (ws : List Word) (r : List ℚ)
    (h : calibrate ws = some r) : r.length = 5 := by
  unfold calibrate at h
  by_cases he : (dayCandidates ws).isEmpty
  · rw [if_pos he] at h
    cases h
    rfl
  · rw [if_neg he] at h
    exact finishFiveAux_length 5 _ _ (by omega) h

/-- Witness for the amended C2 at the empty page (fallback positions). -/
theorem calibrate_some_length_five_witness :
    calibrate [] = some [150, 250, 350, 450, 550] ∧
      ([150, 250, 350, 450, 550] : List ℚ).length = 5 :=
  ⟨by decide, calibrate_some_length_five [] [150, 250, 350, 450, 550] (by decide)⟩

unseal Rat.add Rat.sub Rat.mul Rat.inv in
/-- Counterexample to C2 as stated: a page whose only day-header
candidate is a Monday header makes calibration raise an `IndexError`
(`ordered_positions[-2]` on a one-element list) instead of producing 5
values, and a page whose only candidate is a Friday header at x = 100
yields five values that are strictly descending, not ascending. -/
theorem calibrate_crash_and_descending :
    calibrate [⟨"Monday", 200, 0⟩] = none ∧
      calibrate [⟨"Friday", 100, 0⟩] = some [150, 275/2, 125, 225/2, 100] := by
  constructor
  · decide
  · decide

/-! ## C1: duplicate class identifiers are silently overwritten -/

unseal Rat.add Rat.sub Rat.mul Rat.inv in
/-- C1 (code bug): on a document whose two class-record lines both yield
class id `PK207` (first recording (Tuesday, 2), second recording
(Monday, 3)), `parse` succeeds: the second record silently overwrites
the first in the `classes` dictionary, the first line's (Tuesday, 2)
conflict is lost, and the duplicate-identifier ValidationError in
`_validate_results` never fires (it scans the dictionary's own keys,
which cannot repeat).

The `unseal` directive above this theorem and others below only makes
the library's rational arithmetic reducible so that the evaluation goes
through the kernel. -/
theorem duplicate_classId_silently_overwritten :
    parse [duplicateClassIdPage] =
      .ok [("PK207", ⟨"PK207", "Pre-K", ⟨[3], [], [], [], []⟩, [(Day.Monday, 3)]⟩)] := by
  decide

/-! ## C9: the subject lookback never affects the extracted conflicts -/

theorem conflictLoopNoSubject_eq (line : List Word) (cols : List ℚ) (s : Nat) :
    ∀ (ws : List Word) (i : Nat) (c : ClassInfo),
      conflictLoopNoSubject line cols s ws i c = conflictLoop line cols s ws i c := by
  intro ws
  induction ws with
  | nil => intro i c; rfl
  | cons w rest ih =>
    intro i c
    cases hfp : firstPeriodDigit w.text with
    | none =>
      simp only [conflictLoop, conflictLoopNoSubject, hfp]
      exact ih _ _
    | some period =>
      cases hbc : bestCol cols w.x0 with
      | none =>
        simp only [conflictLoop, conflictLoopNoSubject, hfp, hbc]
        exact ih _ _
      | some day_idx =>
        cases hdy : DAYS[day_idx]? with
        | none => simp only [conflictLoop, conflictLoopNoSubject, hfp, hbc, hdy]
        | some day =>
          simp only [conflictLoop, conflictLoopNoSubject, hfp, hbc, hdy, ite_self]
          cases hac : c.add_conflict day period with
          | error e => simp only [hac]
          | ok c2 =>
            simp only [hac]
            exact ih _ _

/-- C9: conflict extraction records exactly the same conflicts whether or
not the backward subject-token lookback finds a subject: the extractor
with the lookback removed (`extract_conflicts_no_subject`, written from
the spec) is extensionally equal to the extractor as written. -/
theorem extract_conflicts_lookback_irrelevant (line : List Word) (c : ClassInfo)
    (continuation_line : Bool) (cols : List ℚ) :
    extract_conflicts_no_subject line c continuation_line cols =
      extract_conflicts line c continuation_line cols := by
  unfold extract_conflicts extract_conflicts_no_subject
  by_cases h : line.isEmpty || cols.isEmpty
  · rw [if_pos h, if_pos h]
  · rw [if_neg h, if_neg h]
    exact conflictLoopNoSubject_eq line cols _ _ _ c

/-! ## Record invariants: strictly ascending bounded per-day lists -/

theorem pairwise_lt_sort_append {l : List Nat} {p : Nat}
    (hs : List.Pairwise (· < ·) l) (hp : p ∉ l) :
    List.Pairwise (· < ·) (List.insertionSort (· ≤ ·) (l ++ [p])) := by
  have hperm : List.Perm (List.insertionSort (· ≤ ·) (l ++ [p])) (l ++ [p]) :=
    List.perm_insertionSort _ _
  have hndl : l.Nodup := hs.imp (fun h => Nat.ne_of_lt h)
  have hnd0 : (l ++ [p]).Nodup := by
    simp [List.nodup_append, hndl, hp]
  have hnd : (List.insertionSort (· ≤ ·) (l ++ [p])).Nodup := hperm.nodup_iff.mpr hnd0
  have hsorted : List.Pairwise (· ≤ ·) (List.insertionSort (· ≤ ·) (l ++ [p])) :=
    List.sorted_insertionSort _ _
  exact (hsorted.and hnd).imp (fun h => lt_of_le_of_ne h.1 h.2)

theorem good_set {c : ClassInfo} (hg : GoodLists c) {d : Day} {L : List Nat}
    (hpw : List.Pairwise (· < ·) L) (hbnd : ∀ q ∈ L, 1 ≤ q ∧ q ≤ 8)
    (cid gl : String) (ac : List (Day × Nat)) :
    GoodLists ⟨cid, gl, c.conflicts.set d L, ac⟩ := by
  intro d'
  show List.Pairwise (· < ·) ((c.conflicts.set d L).get d') ∧
    ∀ q ∈ (c.conflicts.set d L).get d', 1 ≤ q ∧ q ≤ 8
  rw [get_set]
  by_cases hd : d' = d
  · rw [if_pos hd]
    exact ⟨hpw, hbnd⟩
  · rw [if_neg hd]
    exact hg d'

theorem add_conflict_good {c c' : ClassInfo} {d : Day} {p : Nat}
    (h : c.add_conflict d p = .ok c') (hg : GoodLists c) : GoodLists c' := by
  unfold ClassInfo.add_conflict at h
  cases hv : validatePeriod p with
  | error e => rw [hv] at h; cases h
  | ok u =>
    rw [hv] at h
    have hp : 1 ≤ p ∧ p ≤ 8 := by
      by_contra hcon
      have hnm : ¬ p ∈ VALID_PERIODS := fun hmem => hcon (mem_VALID_PERIODS.mp hmem)
      simp [validatePeriod, hnm] at hv
    by_cases hm : (d, p) ∈ c.all_conflicts
    · rw [if_pos hm] at h
      cases h
      exact hg
    · rw [if_neg hm] at h
      by_cases hin : p ∈ c.conflicts.get d
      · simp only [hin, if_pos] at h
        cases h
        exact fun d' => hg d'
      · simp only [hin, if_neg, not_false_eq_true] at h
        cases h
        refine good_set hg (pairwise_lt_sort_append (hg d).1 hin) ?_ _ _ _
        intro q hq
        have hq2 : q ∈ c.conflicts.get d ++ [p] :=
          (List.perm_insertionSort _ _).mem_iff.mp hq
        rcases List.mem_append.mp hq2 with hold | hnew
        · exact (hg d).2 q hold
        · rw [List.mem_singleton.mp hnew]
          exact hp

theorem mk_good {i g : String} {c : ClassInfo} (h : mkClassInfo i g = .ok c) :
    GoodLists c := by
  unfold mkClassInfo at h
  cases h1 : validateClassId i with
  | error e => rw [h1] at h; cases h
  | ok u =>
    rw [h1] at h
    cases h2 : validateGradeLevel g with
    | error e => rw [h2] at h; cases h
    | ok u2 =>
      rw [h2] at h
      cases h
      intro d
      cases d <;> simp [Conflicts.get, Conflicts.empty]

theorem runCalls_good : ∀ (calls : List (Day × Nat)) {c c' : ClassInfo},
    runCalls c calls = .ok c' → GoodLists c → GoodLists c' := by
  intro calls
  induction calls with
  | nil =>
    intro c c' h hg
    cases h
    exact hg
  | cons dp rest ih =>
    intro c c' h hg
    obtain ⟨d, p⟩ := dp
    simp only [runCalls] at h
    cases hac : c.add_conflict d p with
    | error e => rw [hac] at h; cases h
    | ok c1 =>
      rw [hac] at h
      exact ih h (add_conflict_good hac hg)

/-! ## C4: per-day lists are strictly ascending -/

/-- C4: for every record built by `ClassInfo.__init__` and every finite
sequence of successful `add_conflict` calls, in any order, the resulting
per-day period list of every weekday is strictly ascending (hence has no
duplicates). -/
theorem add_conflict_lists_strictly_ascending
    (id g : String) (c0 : ClassInfo) (calls : List (Day × Nat)) (c' : ClassInfo)
    (hmk : mkClassInfo id g = .ok c0) (hrun : runCalls c0 calls = .ok c')
    (d : Day) : List.Pairwise (· < ·) (c'.conflicts.get d) :=
  ((runCalls_good calls hrun (mk_good hmk)) d).1

/-- Witness for C4: two out-of-order Monday insertions end up strictly
ascending. -/
theorem add_conflict_lists_strictly_ascending_witness :
    List.Pairwise (· < ·)
      ((⟨"PK207", "Pre-K", ⟨[1, 3], [], [], [], []⟩,
          [(Day.Monday, 1), (Day.Monday, 3)]⟩ : ClassInfo).conflicts.get .Monday) :=
  add_conflict_lists_strictly_ascending "PK207" "Pre-K"
    ⟨"PK207", "Pre-K", Conflicts.empty, []⟩ [(.Monday, 3), (.Monday, 1)]
    ⟨"PK207", "Pre-K", ⟨[1, 3], [], [], [], []⟩, [(Day.Monday, 1), (Day.Monday, 3)]⟩
    (by decide) (by decide) .Monday

/-! ## C10: no weekday list can exceed 8 periods -/

/-- C10: for every record built by `ClassInfo.__init__` and mutated only
through successful `add_conflict` calls, every weekday's period list has
at most 8 entries, so the finalization branch rejecting more than 8
periods on one weekday (`dayLimitCheck`, the last loop of
`ClassInfo.validate`) never fires for such records. -/
theorem day_lists_at_most_eight
    (id g : String) (c0 : ClassInfo) (calls : List (Day × Nat)) (c' : ClassInfo)
    (hmk : mkClassInfo id g = .ok c0) (hrun : runCalls c0 calls = .ok c') :
    (∀ d : Day, (c'.conflicts.get d).length ≤ 8) ∧ c'.dayLimitCheck = .ok () := by
  have hg := runCalls_good calls hrun (mk_good hmk)
  have hlen : ∀ d : Day, (c'.conflicts.get d).length ≤ 8 := by
    intro d
    obtain ⟨hpw, hbnd⟩ := hg d
    have hnd : (c'.conflicts.get d).Nodup := hpw.imp (fun h => Nat.ne_of_lt h)
    have hsub : c'.conflicts.get d ⊆ VALID_PERIODS := by
      intro q hq
      exact mem_VALID_PERIODS.mpr (hbnd q hq)
    have hle := (hnd.subperm hsub).length_le
    simpa [VALID_PERIODS] using hle
  refine ⟨hlen, ?_⟩
  unfold ClassInfo.dayLimitCheck
  have hfind : DAYS.find? (fun d => decide (8 < (c'.conflicts.get d).length)) = none := by
    rw [List.find?_eq_none]
    intro d hd
    simp only [decide_eq_true_eq]
    exact Nat.not_lt.mpr (hlen d)
  rw [hfind]

/-- Witness for C10 at a concrete record. -/
theorem day_lists_at_most_eight_witness :
    (∀ d : Day,
      ((⟨"PK207", "Pre-K", ⟨[1, 3], [], [], [], []⟩,
          [(Day.Monday, 1), (Day.Monday, 3)]⟩ : ClassInfo).conflicts.get d).length ≤ 8) ∧
      (⟨"PK207", "Pre-K", ⟨[1, 3], [], [], [], []⟩,
          [(Day.Monday, 1), (Day.Monday, 3)]⟩ : ClassInfo).dayLimitCheck = .ok () :=
  day_lists_at_most_eight "PK207" "Pre-K"
    ⟨"PK207", "Pre-K", Conflicts.empty, []⟩ [(.Monday, 3), (.Monday, 1)]
    ⟨"PK207", "Pre-K", ⟨[1, 3], [], [], [], []⟩, [(Day.Monday, 1), (Day.Monday, 3)]⟩
    (by decide) (by decide)

/-! ## C8: serialization is ordered day-then-period ascending -/

/-- C8: for every record built by `ClassInfo.__init__` and successful
`add_conflict` calls, the `defaultConflicts` list emitted by `to_dict`
(entries `(dayOfWeek, period)` with Monday = 1 .. Friday = 5 and each
period exactly the recorded period number) is strictly sorted by day
then period, both ascending. -/
theorem defaultConflicts_day_then_period_sorted
    (id g : String) (c0 : ClassInfo) (calls : List (Day × Nat)) (c' : ClassInfo)
    (hmk : mkClassInfo id g = .ok c0) (hrun : runCalls c0 calls = .ok c') :
    List.Pairwise lexLt c'.defaultConflicts := by
  have hg := runCalls_good calls hrun (mk_good hmk)
  unfold ClassInfo.defaultConflicts
  rw [List.pairwise_flatten]
  constructor
  · intro bl hbl
    rw [List.mem_map] at hbl
    obtain ⟨d, _, rfl⟩ := hbl
    rw [List.pairwise_map]
    exact ((hg d).1).imp (fun hlt => Or.inr ⟨rfl, hlt⟩)
  · rw [List.pairwise_map]
    have hcross : ∀ d1 d2 : Day, d1.num < d2.num →
        ∀ x ∈ (c'.conflicts.get d1).map (fun p => (d1.num, p)),
          ∀ y ∈ (c'.conflicts.get d2).map (fun p => (d2.num, p)), lexLt x y := by
      intro d1 d2 hn x hx y hy
      rw [List.mem_map] at hx hy
      obtain ⟨p1, _, rfl⟩ := hx
      obtain ⟨p2, _, rfl⟩ := hy
      exact Or.inl hn
    have hdays : List.Pairwise (fun d1 d2 : Day => d1.num < d2.num) DAYS := by decide
    exact hdays.imp (fun hn => hcross _ _ hn)

/-- Witness for C8 at a concrete record with Monday and Tuesday entries. -/
theorem defaultConflicts_day_then_period_sorted_witness :
    List.Pairwise lexLt
      (⟨"PK207", "Pre-K", ⟨[1, 3], [2], [], [], []⟩,
        [(Day.Monday, 1), (Day.Monday, 3), (Day.Tuesday, 2)]⟩ : ClassInfo).defaultConflicts :=
  defaultConflicts_day_then_period_sorted "PK207" "Pre-K"
    ⟨"PK207", "Pre-K", Conflicts.empty, []⟩
    [(.Tuesday, 2), (.Monday, 3), (.Monday, 1)]
    ⟨"PK207", "Pre-K", ⟨[1, 3], [2], [], [], []⟩,
      [(Day.Monday, 1), (Day.Monday, 3), (Day.Tuesday, 2)]⟩
    (by decide) (by decide)

/-! ## C5: calibration with all five headers in canonical order -/

/-- C5: for every page word list whose day-header candidate scan yields
exactly one candidate per weekday, with x-coordinates in canonical order
Monday < Tuesday < Wednesday < Thursday < Friday (in whatever word
order), calibration returns exactly those five literal x-coordinates in
canonical order — no interpolation or extrapolation is applied. -/
theorem calibrate_five_headers_literal (ws : List Word) (a b c d e : ℚ)
    (hab : a < b) (hbc : b < c) (hcd : c < d) (hde : d < e)
    (hperm : List.Perm (dayCandidates ws)
      [(Day.Monday, a), (Day.Tuesday, b), (Day.Wednesday, c),
        (Day.Thursday, d), (Day.Friday, e)]) :
    calibrate ws = some [a, b, c, d, e] := by
  have hlen := hperm.length_eq
  have hne : ¬((dayCandidates ws).isEmpty = true) := by
    intro h0
    rw [List.isEmpty_iff.mp h0] at hlen
    simp at hlen
  have hcanon_lt : List.Pairwise (fun u v : Day × ℚ => u.2 < v.2)
      [(Day.Monday, a), (Day.Tuesday, b), (Day.Wednesday, c),
        (Day.Thursday, d), (Day.Friday, e)] := by
    rw [← List.chain'_iff_pairwise]
    exact List.Chain'.cons hab (List.Chain'.cons hbc (List.Chain'.cons hcd
      (List.Chain'.cons hde (List.chain'_singleton _))))
  have hsort_perm : List.Perm (sortByX (dayCandidates ws))
      [(Day.Monday, a), (Day.Tuesday, b), (Day.Wednesday, c),
        (Day.Thursday, d), (Day.Friday, e)] :=
    (List.perm_insertionSort _ _).trans hperm
  have hsorted_le : List.Pairwise (fun u v : Day × ℚ => u.2 ≤ v.2)
      (sortByX (dayCandidates ws)) :=
    List.sorted_insertionSort _ _
  have hne_pair : List.Pairwise (fun u v : Day × ℚ => u.2 ≠ v.2)
      (sortByX (dayCandidates ws)) :=
    (hsort_perm.pairwise_iff (fun h => Ne.symm h)).mpr
      (hcanon_lt.imp (fun h => ne_of_lt h))
  have hsorted_lt : List.Pairwise (fun u v : Day × ℚ => u.2 < v.2)
      (sortByX (dayCandidates ws)) :=
    (hsorted_le.and hne_pair).imp (fun h => lt_of_le_of_ne h.1 h.2)
  haveI : IsAntisymm (Day × ℚ) (fun u v => u.2 < v.2) :=
    ⟨fun u v h1 h2 => absurd (h1.trans h2) (lt_irrefl _)⟩
  have heq : sortByX (dayCandidates ws) =
      [(Day.Monday, a), (Day.Tuesday, b), (Day.Wednesday, c),
        (Day.Thursday, d), (Day.Friday, e)] :=
    List.eq_of_perm_of_sorted hsort_perm hsorted_lt hcanon_lt
  simp only [calibrate]
  rw [if_neg hne, heq]
  simp [fillAll, fillTo, fillToAux, finishFive, finishFiveAux, Day.idx]

/-- Witness for C5 at a page holding exactly the five canonical headers. -/
theorem calibrate_five_headers_literal_witness :
    calibrate [⟨"Monday", 150, 0⟩, ⟨"Tuesday", 250, 0⟩, ⟨"Wednesday", 350, 0⟩,
      ⟨"Thursday", 450, 0⟩, ⟨"Friday", 550, 0⟩] = some [150, 250, 350, 450, 550] :=
  calibrate_five_headers_literal _ 150 250 350 450 550
    (by decide) (by decide) (by decide) (by decide)
    (by rw [show dayCandidates [⟨"Monday", 150, 0⟩, ⟨"Tuesday", 250, 0⟩,
        ⟨"Wednesday", 350, 0⟩, ⟨"Thursday", 450, 0⟩, ⟨"Friday", 550, 0⟩] =
        [(Day.Monday, 150), (Day.Tuesday, 250), (Day.Wednesday, 350),
          (Day.Thursday, 450), (Day.Friday, 550)] from by decide])

end Sched
